import Mathlib

/-!
Verification of the image-upload service (claims over a shallow embedding).

The embedding models, from the source:
  - the credential/lockout guard requirePasswordForRequest with its
    in-memory per-client entry of the failedAttempts map;
  - the file-name sanitizer sanitizeFileName (with posix basename);
  - the magic-byte format sniffing and PNG decoding pipeline of
    imageBufferToPixelJSON;
  - the upload and read-by-name route handlers with an association-list
    record store standing for the storage directory.
Machine integers are Nat (timestamps in milliseconds, byte values 0..255).
Fallible code returns Option or Except.
-/

/-! ## Configuration constants (source lines 17-22) -/

def SERVER_PASSWORD : String := "ImageConnection_FOX"

def PASSWORD_MAX_FAILURES : Nat := 5

def PASSWORD_LOCK_DURATION_MS : Nat := 60 * 60 * 1000

/-! ## AccessGuard: the per-client entry of the failedAttempts map -/

/-- One value of the failedAttempts map: the JS object
with count and an optional blockedUntil timestamp (milliseconds). -/
structure LockEntry where
  count : Nat
  blockedUntil : Option Nat
deriving DecidableEq, Repr

/-- Outcome of one guard invocation, as the caller observes it:
next() is Allowed, the 403 response is Denied, the 429 response is Blocked. -/
inductive VerifyResult where
  | Allowed
  | Denied
  | Blocked
deriving DecidableEq, Repr

/-- The block test of source line 54:
entry exists, blockedUntil is set, and now is before it. -/
def isBlocked (entry : Option LockEntry) (now : Nat) : Bool :=
  match entry with
  | some e =>
    match e.blockedUntil with
    | some b => decide (now < b)
    | none => false
  | none => false

/-- The guard middleware of source lines 49-75, restricted to one client:
the state is that client's entry of failedAttempts (none when absent),
provided is the resolved credential string ('' when absent),
expected is SERVER_PASSWORD, now is Date.now().
Returns the observed result and the client's new entry. -/
def requirePasswordForRequest (entry : Option LockEntry) (provided expected : String)
    (now : Nat) : VerifyResult × Option LockEntry :=
  if isBlocked entry now then
    (VerifyResult.Blocked, entry)
  else if provided == "" || provided != expected then
    let info := entry.getD ⟨0, none⟩
    let newCount := info.count + 1
    if PASSWORD_MAX_FAILURES ≤ newCount then
      (VerifyResult.Denied, some ⟨newCount, some (now + PASSWORD_LOCK_DURATION_MS)⟩)
    else
      (VerifyResult.Denied, some ⟨newCount, info.blockedUntil⟩)
  else
    (VerifyResult.Allowed, none)

/-- Failure count of an optional entry (an absent entry counts as 0,
matching the JS default object with count 0). -/
def entryCount : Option LockEntry → Nat
  | none => 0
  | some e => e.count

/-- blockedUntil of an optional entry. -/
def entryBlockedUntil : Option LockEntry → Option Nat
  | none => none
  | some e => e.blockedUntil

/-! ## NameSanitizer: sanitizeFileName (source lines 40-47) and posix basename -/

/-- The path separator test (posix: the character with code 47). -/
def isSlashChar (c : Char) : Bool := c.toNat == 47

/-- Node path.basename on the character list of a posix path:
drop trailing separators, then keep the characters after the last
remaining separator. -/
def basenameL (l : List Char) : List Char :=
  ((l.reverse.dropWhile isSlashChar).takeWhile (fun c => !isSlashChar c)).reverse

/-- The JS whitespace class (regex backslash-s), by code point. -/
def jsWhitespace (c : Char) : Bool :=
  c.toNat == 9 || c.toNat == 10 || c.toNat == 11 || c.toNat == 12 || c.toNat == 13 ||
  c.toNat == 32 || c.toNat == 160 || c.toNat == 5760 ||
  (decide (8192 ≤ c.toNat) && decide (c.toNat ≤ 8202)) ||
  c.toNat == 8232 || c.toNat == 8233 || c.toNat == 8239 || c.toNat == 8287 ||
  c.toNat == 12288 || c.toNat == 65279

/-- Characters kept by the sanitizer, i.e. the regex class
of letters, digits, underscore, hyphen and dot (codes 65-90, 97-122,
48-57, 95, 45, 46). -/
def keepChar (c : Char) : Bool :=
  (decide (65 ≤ c.toNat) && decide (c.toNat ≤ 90)) ||
  (decide (97 ≤ c.toNat) && decide (c.toNat ≤ 122)) ||
  (decide (48 ≤ c.toNat) && decide (c.toNat ≤ 57)) ||
  c.toNat == 95 || c.toNat == 45 || c.toNat == 46

/-- replace of a global whitespace-run regex by one underscore:
the Bool argument records whether the previous character was whitespace
(so each maximal run yields a single underscore). -/
def collapseWsAux : Bool → List Char → List Char
  | _, [] => []
  | prevWs, c :: rest =>
    if jsWhitespace c then
      (if prevWs then [] else ['_']) ++ collapseWsAux true rest
    else
      c :: collapseWsAux false rest

/-- Replace every maximal whitespace run by a single underscore. -/
def collapseWs (l : List Char) : List Char := collapseWsAux false l

/-- sanitizeFileName of source lines 40-47: basename, collapse whitespace
to underscores, drop characters outside the kept class, and fall back
to the token file when the result is empty. -/
def sanitizeFileName (name : String) : String :=
  let base1 := String.mk (basenameL name.toList)
  let base2 := String.mk (collapseWs base1.toList)
  let base3 := String.mk (base2.toList.filter keepChar)
  if base3 = "" then "file" else base3

/-! ## PixelCodec: magic sniffing and decoding (source lines 77-118) -/

/-- The 8-byte PNG signature. -/
def pngMagic : List Nat := [137, 80, 78, 71, 13, 10, 26, 10]

/-- The 3-byte JPEG signature prefix tested by the source
(hex of the first four bytes startsWith ffd8ff). -/
def jpegMagic : List Nat := [255, 216, 255]

/-- Decode failures distinguished by the source: the explicit
unsupported-file-type throw versus a throw from the codec library. -/
inductive DecodeError where
  | UnsupportedFormat
  | DecodeFailure
deriving DecidableEq, Repr

/-- One RGBA pixel, each channel a byte value. -/
structure Pixel where
  r : Nat
  g : Nat
  b : Nat
  a : Nat
deriving DecidableEq, Repr

/-- The decoded image: width, height and the pixel sequence in row-major
order. -/
structure PixelImage where
  width : Nat
  height : Nat
  pixels : List Pixel
deriving DecidableEq, Repr

/-- The pixel-building loop of source lines 94-101: consume the RGBA data
four bytes at a time. -/
def toPixels : List Nat → List Pixel
  | r :: g :: b :: a :: rest => ⟨r, g, b, a⟩ :: toPixels rest
  | _ => []

/-- Big-endian 32-bit read of a four-byte slice (0 on a short slice). -/
def readBE32 (l : List Nat) : Nat :=
  match l with
  | [a, b, c, d] => ((a * 256 + b) * 256 + c) * 256 + d
  | _ => 0

def chunkTypeIHDR : List Nat := [73, 72, 68, 82]

def chunkTypeIDAT : List Nat := [73, 68, 65, 84]

def chunkTypeIEND : List Nat := [73, 69, 78, 68]

/-- Modelled from the spec: chunk layer of the pngjs PNG.sync.read decoder,
which is a library outside this repository. Splits the byte stream after
the signature into (type, data) chunks of the PNG chunk grammar
(4-byte big-endian length, 4-byte type, data, 4-byte CRC), stopping at
IEND; any ill-formed layout is a decode failure (none). -/
def parseChunks : Nat → List Nat → Option (List (List Nat × List Nat))
  | 0, _ => none
  | fuel + 1, buf =>
    if buf.length < 12 then none
    else
      let len := readBE32 (buf.take 4)
      let ctype := (buf.drop 4).take 4
      let cdata := (buf.drop 8).take len
      if buf.length < 12 + len then none
      else if ctype = chunkTypeIEND then some [(ctype, cdata)]
      else
        match parseChunks fuel (buf.drop (12 + len)) with
        | none => none
        | some rest => some ((ctype, cdata) :: rest)

/-- Modelled from the spec: the deflate layer of the zlib stream inside
IDAT (the zlib library is outside this repository). Handles stored
(uncompressed) blocks: one header byte (final flag and block type), the
little-endian length and its complement, then the raw bytes; anything
else is a decode failure. -/
def inflateStored : Nat → List Nat → Option (List Nat)
  | 0, _ => none
  | _ + 1, [] => none
  | fuel + 1, b :: rest =>
    if (b / 2) % 4 != 0 then none
    else
      match rest with
      | l0 :: l1 :: n0 :: n1 :: rest2 =>
        if l0 + n0 != 255 || l1 + n1 != 255 then none
        else
          let len := l0 + 256 * l1
          if rest2.length < len then none
          else if b % 2 == 1 then some (rest2.take len)
          else
            match inflateStored fuel (rest2.drop len) with
            | none => none
            | some more => some (rest2.take len ++ more)
      | _ => none

/-- Modelled from the spec: zlib envelope around the deflate stream
(2-byte header whose first byte carries compression method 8, trailing
checksum not re-verified by the model). -/
def zlibInflate (l : List Nat) : Option (List Nat) :=
  match l with
  | cmf :: _flg :: rest => if cmf % 16 != 8 then none else inflateStored (rest.length + 1) rest
  | _ => none

/-- Modelled from the spec: scanline de-filtering for filter type 0.
Each of the h scanlines is one filter byte followed by 4*w pixel bytes;
a nonzero filter byte or a length mismatch is a decode failure. -/
def unfilterNone (w : Nat) : Nat → List Nat → Option (List Nat)
  | 0, [] => some []
  | 0, _ :: _ => none
  | _ + 1, [] => none
  | h + 1, f :: rest =>
    if f != 0 then none
    else if rest.length < 4 * w then none
    else
      match unfilterNone w h (rest.drop (4 * w)) with
      | none => none
      | some more => some (rest.take (4 * w) ++ more)

/-- Modelled from the spec: header layer of PNG.sync.read. Requires the
signature, an IHDR first chunk with bit depth 8, color type 6 (RGBA) and
no interlacing, and concatenates the IDAT chunk data. A recognized
format that fails any structural check is a decode failure (none),
matching DecodeFailure for corrupt data or unsupported color depth. -/
def pngParse (buffer : List Nat) : Option (Nat × Nat × List Nat) :=
  if buffer.take 8 != pngMagic then none
  else
    match parseChunks buffer.length (buffer.drop 8) with
    | none => none
    | some [] => none
    | some ((t, ihdr) :: rest) =>
      if t != chunkTypeIHDR || ihdr.length != 13 then none
      else
        let w := readBE32 (ihdr.take 4)
        let h := readBE32 ((ihdr.drop 4).take 4)
        let bitDepth := ihdr.getD 8 0
        let colorType := ihdr.getD 9 0
        let interlace := ihdr.getD 12 0
        if bitDepth != 8 || colorType != 6 || interlace != 0 then none
        else
          let idat := ((rest.filter (fun c => c.fst = chunkTypeIDAT)).map Prod.snd).flatten
          some (w, h, idat)

/-- Modelled from the spec: PNG.sync.read of the pngjs library (not part
of this repository), faithful to the contract that a recognized PNG is
fully decoded to an RGBA grid of 4*width*height bytes or fails. -/
def pngSyncRead (buffer : List Nat) : Option (Nat × Nat × List Nat) :=
  (pngParse buffer).bind fun whd =>
    (zlibInflate whd.2.2).bind fun raw =>
      (unfilterNone whd.1 whd.2.1 raw).map fun data => (whd.1, whd.2.1, data)

/-- Modelled from the spec: jpeg.decode of the jpeg-js library (not part
of this repository). No claim depends on a successful JPEG decode, so the
model only records that it is a fallible decoder. -/
def jpegDecode (_buffer : List Nat) : Option (Nat × Nat × List Nat) := none

/-- imageBufferToPixelJSON of source lines 77-118: sniff the magics,
throw the unsupported-type error when neither matches, otherwise decode
with the codec for the detected format and build the pixel list. -/
def imageBufferToPixelJSON (buffer : List Nat) : Except DecodeError PixelImage :=
  let isPNG := buffer.take 8 == pngMagic
  let isJPEG := buffer.take 3 == jpegMagic
  if !isPNG && !isJPEG then Except.error DecodeError.UnsupportedFormat
  else if isPNG then
    match pngSyncRead buffer with
    | none => Except.error DecodeError.DecodeFailure
    | some (w, h, data) => Except.ok ⟨w, h, toPixels data⟩
  else
    match jpegDecode buffer with
    | none => Except.error DecodeError.DecodeFailure
    | some (w, h, data) => Except.ok ⟨w, h, toPixels data⟩

/-! ## RecordStore and route handlers (source lines 138-243) -/

/-- Decimal digit character (codes 48..57). -/
def digitChar10 (d : Nat) : Char :=
  match d with
  | 0 => '0' | 1 => '1' | 2 => '2' | 3 => '3' | 4 => '4'
  | 5 => '5' | 6 => '6' | 7 => '7' | 8 => '8' | _ => '9'

/-- Decimal rendering, fuel-driven so it reduces in the kernel
(the fuel one above the number always suffices). -/
def natDigitsAux : Nat → Nat → List Char
  | 0, _ => []
  | fuel + 1, n =>
    if n < 10 then [digitChar10 n]
    else natDigitsAux fuel (n / 10) ++ [digitChar10 (n % 10)]

/-- Decimal rendering of a Nat, modelling the template interpolation of
the Date.now() timestamp into the stored file name. -/
def natDigits (n : Nat) : List Char := natDigitsAux (n + 1) n

/-- The stored file name of source lines 159 and 205: the timestamp, an
underscore, the sanitized name, and the .json suffix. -/
def makeFileName (now : Nat) (safeName : String) : String :=
  String.mk (natDigits now ++ '_' :: (safeName.toList ++ ['.', 'j', 's', 'o', 'n']))

def b64Char (n : Nat) : Char :=
  "ABCDEFGHIJKLMNOPQRSTUVWXYZabcdefghijklmnopqrstuvwxyz0123456789+/".toList.getD n 'A'

/-- Standard base64 of a byte list, modelling toString of a buffer in
base64 when the multipart route stores the raw image. -/
def base64Encode : List Nat → List Char
  | [] => []
  | [a] => [b64Char (a / 4), b64Char (a % 4 * 16), '=', '=']
  | [a, b] => [b64Char (a / 4), b64Char (a % 4 * 16 + b / 16), b64Char (b % 16 * 4), '=']
  | a :: b :: c :: rest =>
    b64Char (a / 4) :: b64Char (a % 4 * 16 + b / 16) ::
      b64Char (b % 16 * 4 + c / 64) :: b64Char (c % 64) :: base64Encode rest

/-- The two persisted document shapes: the decoded record written by the
JSON route (source lines 208-215) and the raw-passthrough record written
by the multipart route (source lines 171-176). -/
inductive StoredDoc where
  | decoded (filename original : String) (uploadedAt width height : Nat) (pixels : List Pixel)
  | raw (filename original : String) (uploadedAt : Nat) (imageBase64 : String)
deriving DecidableEq, Repr

/-- True exactly when a stored document carries width, height and pixels. -/
def hasPixelData : StoredDoc → Bool
  | StoredDoc.decoded _ _ _ _ _ _ => true
  | StoredDoc.raw _ _ _ _ => false

/-- The storage directory as a key to document map (writeJson and
readJson on files of the storage directory). -/
def RecordStore : Type := List (String × StoredDoc)

def lookupStore : RecordStore → String → Option StoredDoc
  | [], _ => none
  | (k, d) :: rest, key => if k = key then some d else lookupStore rest key

/-- The uploadJson route core of source lines 199-217 (after the guard and
the rate limiter): decode the buffer, build the decoded record under the
timestamped sanitized file name, persist it and return the file name.
The base64 transport decoding of the request body is the pre-validated
byte-buffer boundary of the spec. -/
def uploadJson (store : RecordStore) (now : Nat) (buffer : List Nat) (name : String) :
    Except DecodeError (RecordStore × String) :=
  match imageBufferToPixelJSON buffer with
  | Except.error e => Except.error e
  | Except.ok img =>
    let safeName := sanitizeFileName name
    let fileName := makeFileName now safeName
    Except.ok
      ((fileName, StoredDoc.decoded fileName name now img.width img.height img.pixels) :: store,
        fileName)

/-- The multipart upload route core of source lines 150-178 (after the
guard): no decoding is performed (the decode call is commented out in the
source); the raw buffer is stored base64-encoded under the timestamped
sanitized original name. -/
def uploadMultipart (store : RecordStore) (now : Nat) (buffer : List Nat)
    (originalName : String) : RecordStore × String :=
  let safeName := sanitizeFileName originalName
  let fileName := makeFileName now safeName
  ((fileName, StoredDoc.raw fileName originalName now (String.mk (base64Encode buffer))) :: store,
    fileName)

/-- Outcome of the read-by-name route. -/
inductive GetResult where
  | found (doc : StoredDoc)
  | notFound
deriving DecidableEq, Repr

/-- The getImage route core of source lines 233-237: take the basename of
the requested name, look it up in the storage directory, and answer 404
when the file does not exist. -/
def getImageHandler (store : RecordStore) (rawName : String) : GetResult :=
  let safeName := String.mk (basenameL rawName.toList)
  match lookupStore store safeName with
  | some d => GetResult.found d
  | none => GetResult.notFound

/-! ## Filesystem paths for the read-by-name route (claim C10) -/

/-- Split a character list into path segments at separators. -/
def splitOnSlash : List Char → List (List Char)
  | [] => [[]]
  | c :: rest =>
    if isSlashChar c then [] :: splitOnSlash rest
    else
      match splitOnSlash rest with
      | [] => [[c]]
      | cur :: r => (c :: cur) :: r

/-- Node path.join path normalization over an absolute base given as
segments: empty and dot segments vanish, a dot-dot segment pops the last
segment, any other segment is appended. -/
def resolveSegs : List (List Char) → List (List Char) → List (List Char)
  | acc, [] => acc
  | acc, s :: rest =>
    if s = [] || s = ['.'] then resolveSegs acc rest
    else if s = ['.', '.'] then resolveSegs acc.dropLast rest
    else resolveSegs (acc ++ [s]) rest

/-- The filesystem path the getImage route accesses for a requested name:
the storage directory joined with the basename of the name
(source lines 234-235). -/
def getImagePath (dirSegs : List (List Char)) (rawName : List Char) : List (List Char) :=
  resolveSegs dirSegs (splitOnSlash (basenameL rawName))

/-! ## Concrete test image: a 2 by 2 fully opaque red PNG -/

/-- Four opaque red pixels. -/
def fourRed : List Pixel := [⟨255, 0, 0, 255⟩, ⟨255, 0, 0, 255⟩, ⟨255, 0, 0, 255⟩, ⟨255, 0, 0, 255⟩]

/-- A valid 2 by 2 opaque red PNG: signature, IHDR (8-bit RGBA, no
interlace), one IDAT whose zlib stream is a single stored deflate block
holding the two unfiltered scanlines, and IEND. -/
def redPng : List Nat :=
  [137, 80, 78, 71, 13, 10, 26, 10,
   0, 0, 0, 13, 73, 72, 68, 82,
   0, 0, 0, 2, 0, 0, 0, 2, 8, 6, 0, 0, 0,
   0, 0, 0, 0,
   0, 0, 0, 29, 73, 68, 65, 84,
   120, 1,
   1, 18, 0, 237, 255,
   0, 255, 0, 0, 255, 255, 0, 0, 255,
   0, 255, 0, 0, 255, 255, 0, 0, 255,
   0, 0, 0, 0,
   0, 0, 0, 0,
   0, 0, 0, 0, 73, 69, 78, 68, 0, 0, 0, 0]

/-! ## Branch characterizations of the guard -/

/-- A blocked client: the guard answers Blocked and leaves the entry. -/
lemma verify_blocked_eq (entry : Option LockEntry) (provided expected : String) (now : Nat)
    (hblk : isBlocked entry now = true) :
    requirePasswordForRequest entry provided expected now = (VerifyResult.Blocked, entry) := by
  simp [requirePasswordForRequest, hblk]

/-- A mismatch by a non-blocked client: Denied, count up by one, lock set
when the new count reaches the threshold, prior blockedUntil kept
otherwise. -/
lemma verify_mismatch_eq (entry : Option LockEntry) (provided expected : String) (now : Nat)
    (hnb : isBlocked entry now = false)
    (hBool : (provided == "" || provided != expected) = true) :
    requirePasswordForRequest entry provided expected now =
      (VerifyResult.Denied,
        some ⟨entryCount entry + 1,
          if PASSWORD_MAX_FAILURES ≤ entryCount entry + 1 then
            some (now + PASSWORD_LOCK_DURATION_MS)
          else entryBlockedUntil entry⟩) := by
  by_cases hth : PASSWORD_MAX_FAILURES ≤ entryCount entry + 1
  · rw [if_pos hth]
    cases entry <;> simp_all [requirePasswordForRequest, isBlocked, entryCount]
  · rw [if_neg hth]
    cases entry <;>
      simp_all [requirePasswordForRequest, isBlocked, entryCount, entryBlockedUntil]

/-- A non-empty matching credential from a non-blocked client: Allowed and
the entry deleted. -/
lemma verify_match_eq (entry : Option LockEntry) (provided expected : String) (now : Nat)
    (hnb : isBlocked entry now = false)
    (hBool : (provided == "" || provided != expected) = false) :
    requirePasswordForRequest entry provided expected now = (VerifyResult.Allowed, none) := by
  simp only [Bool.or_eq_false_iff] at hBool
  have h1 : ¬provided = "" := by
    intro h
    rw [h] at hBool
    simpa using hBool.1
  have h2 : provided = expected := by
    have := hBool.2
    simpa using this
  subst h2
  simp [requirePasswordForRequest, hnb, h1]

/-! ## Claims about the AccessGuard -/

/-- C1: while a client's entry has blockedUntil set and now is before it,
any verify call returns Blocked with the entry unchanged, and in
particular never returns Allowed, whatever credential is supplied. -/
theorem C1_locked_window_blocks (e : LockEntry) (b : Nat) (provided expected : String)
    (now : Nat) (hb : e.blockedUntil = some b) (hlt : now < b) :
    requirePasswordForRequest (some e) provided expected now = (VerifyResult.Blocked, some e) ∧
    (requirePasswordForRequest (some e) provided expected now).fst ≠ VerifyResult.Allowed := by
  have hblk : isBlocked (some e) now = true := by simp [isBlocked, hb, hlt]
  have h := verify_blocked_eq (some e) provided expected now hblk
  exact ⟨h, by simp [h]⟩

/-- Witness for C1: a locked entry stays locked and Blocked even when the
correct credential is supplied during the window. -/
theorem C1_locked_window_blocks_witness :
    requirePasswordForRequest (some ⟨5, some 200⟩) SERVER_PASSWORD SERVER_PASSWORD 100 =
      (VerifyResult.Blocked, some ⟨5, some 200⟩) :=
  (C1_locked_window_blocks ⟨5, some 200⟩ 200 SERVER_PASSWORD SERVER_PASSWORD 100 rfl
    (by decide)).1

/-- C3 counterexample: at the mismatch that reaches the threshold
(previous count 4), the guard sets blockedUntil to now plus one hour but
still answers with the 403 Denied response, not Blocked, refuting the
claim that this call returns Blocked. -/
theorem C3_counterexample :
    requirePasswordForRequest (some ⟨4, none⟩) "wrong" SERVER_PASSWORD 0 =
      (VerifyResult.Denied, some ⟨5, some 3600000⟩) ∧
    (requirePasswordForRequest (some ⟨4, none⟩) "wrong" SERVER_PASSWORD 0).fst ≠
      VerifyResult.Blocked := by
  refine ⟨by decide, by decide⟩

/-- C3 amended: on a mismatch by a non-blocked client the count rises by
one and blockedUntil is set to now plus one hour once the new count
reaches the threshold, but the call itself returns Denied (the 403);
Blocked (the 429) is a distinct result reserved for later calls inside
the window. -/
theorem C3_mismatch_increments_and_locks (entry : Option LockEntry) (provided expected : String)
    (now : Nat) (hnb : isBlocked entry now = false)
    (hmm : provided = "" ∨ provided ≠ expected) :
    requirePasswordForRequest entry provided expected now =
      (VerifyResult.Denied,
        some ⟨entryCount entry + 1,
          if PASSWORD_MAX_FAILURES ≤ entryCount entry + 1 then
            some (now + PASSWORD_LOCK_DURATION_MS)
          else entryBlockedUntil entry⟩) ∧
    VerifyResult.Denied ≠ VerifyResult.Blocked := by
  have hBool : (provided == "" || provided != expected) = true := by
    rcases hmm with h | h <;> simp [h]
  exact ⟨verify_mismatch_eq entry provided expected now hnb hBool, by decide⟩

/-- Witness for C3 amended: a first mismatch by a fresh client yields
Denied with count 1 and no lock. -/
theorem C3_mismatch_increments_and_locks_witness :
    requirePasswordForRequest none "wrong" SERVER_PASSWORD 7 =
      (VerifyResult.Denied, some ⟨1, none⟩) := by
  have h := (C3_mismatch_increments_and_locks none "wrong" SERVER_PASSWORD 7 (by decide)
    (Or.inr (by decide))).1
  simpa [entryCount, entryBlockedUntil, PASSWORD_MAX_FAILURES] using h

/-- C6: a correct, non-empty credential from a client with some failures
below the threshold and no active block deletes the whole entry and
returns Allowed. -/
theorem C6_correct_credential_resets (n : Nat) (bu : Option Nat) (cred : String) (now : Nat)
    (h1 : 1 ≤ n) (h2 : n < PASSWORD_MAX_FAILURES)
    (hnb : isBlocked (some ⟨n, bu⟩) now = false) (hc : cred ≠ "") :
    requirePasswordForRequest (some ⟨n, bu⟩) cred cred now = (VerifyResult.Allowed, none) := by
  have hBool : (cred == "" || cred != cred) = false := by simp [hc]
  exact verify_match_eq (some ⟨n, bu⟩) cred cred now hnb hBool

/-- Witness for C6 at count 2 with the configured password. -/
theorem C6_correct_credential_resets_witness :
    requirePasswordForRequest (some ⟨2, none⟩) SERVER_PASSWORD SERVER_PASSWORD 0 =
      (VerifyResult.Allowed, none) :=
  C6_correct_credential_resets 2 none SERVER_PASSWORD 0 (by decide) (by decide) (by decide)
    (by decide)

/-- C8: the guard never lowers a count (the entry can only disappear as a
whole, on success), never drops blockedUntil while an entry survives, and
a client whose lock has expired but whose stale count is at or above the
threshold gets a fresh blockedUntil a full hour ahead from a single
further mismatch. -/
theorem C8_monotone_lockout (entry : Option LockEntry) (provided expected : String) (now : Nat) :
    ((requirePasswordForRequest entry provided expected now).snd = none ∨
      entryCount entry ≤ entryCount (requirePasswordForRequest entry provided expected now).snd) ∧
    (∀ b, entryBlockedUntil entry = some b →
      (requirePasswordForRequest entry provided expected now).snd = none ∨
      ∃ b2, entryBlockedUntil (requirePasswordForRequest entry provided expected now).snd =
        some b2) ∧
    (∀ e, entry = some e → PASSWORD_MAX_FAILURES ≤ e.count →
      isBlocked entry now = false → (provided = "" ∨ provided ≠ expected) →
      entryBlockedUntil (requirePasswordForRequest entry provided expected now).snd =
        some (now + PASSWORD_LOCK_DURATION_MS)) := by
  cases hblk : isBlocked entry now with
  | true =>
    have hres := verify_blocked_eq entry provided expected now hblk
    exact ⟨Or.inr (by simp [hres]), fun b hb => Or.inr ⟨b, by simp [hres, hb]⟩,
      fun e he hc hnb => by simp [hblk] at hnb⟩
  | false =>
    cases hBool : (provided == "" || provided != expected) with
    | true =>
      have hres := verify_mismatch_eq entry provided expected now hblk hBool
      refine ⟨Or.inr ?_, fun b hb => Or.inr ?_, fun e he hc hnb hmm => ?_⟩
      · rw [hres]
        cases entry <;> simp [entryCount]
      · rw [hres, hb]
        by_cases hth : PASSWORD_MAX_FAILURES ≤ entryCount entry + 1
        · exact ⟨now + PASSWORD_LOCK_DURATION_MS, by simp [entryBlockedUntil, hth]⟩
        · exact ⟨b, by simp [entryBlockedUntil, hth]⟩
      · have hth : PASSWORD_MAX_FAILURES ≤ entryCount entry + 1 := by
          subst he
          simp only [entryCount]
          omega
        rw [hres]
        simp [entryBlockedUntil, hth]
    | false =>
      have hres := verify_match_eq entry provided expected now hblk hBool
      refine ⟨Or.inl (by simp [hres]), fun b hb => Or.inl (by simp [hres]),
        fun e he hc hnb hmm => ?_⟩
      rcases hmm with h | h
      · simp [h] at hBool
      · simp only [Bool.or_eq_false_iff, bne_eq_false_iff_eq] at hBool
        exact absurd hBool.2 h

/-- Witness for C8: an expired lock with stale count 5 is renewed to a
lock one hour from now by one further mismatch. -/
theorem C8_monotone_lockout_witness :
    entryBlockedUntil ((requirePasswordForRequest (some ⟨5, some 10⟩) "x" "y" 100).snd) =
      some 3600100 := by
  have h := (C8_monotone_lockout (some ⟨5, some 10⟩) "x" "y" 100).2.2 ⟨5, some 10⟩ rfl
    (by decide) (by decide) (Or.inr (by decide))
  simpa using h

/-- C9: an empty supplied credential is always a mismatch for a
non-blocked client: the count rises by one and the call answers Denied,
never Allowed, even when the expected credential is itself empty. -/
theorem C9_empty_credential_denied (entry : Option LockEntry) (expected : String) (now : Nat)
    (hnb : isBlocked entry now = false) :
    (requirePasswordForRequest entry "" expected now).fst = VerifyResult.Denied ∧
    (requirePasswordForRequest entry "" expected now).fst ≠ VerifyResult.Allowed ∧
    entryCount (requirePasswordForRequest entry "" expected now).snd =
      entryCount entry + 1 := by
  have hBool : (("" : String) == "" || ("" : String) != expected) = true := by simp
  have hres := verify_mismatch_eq entry "" expected now hnb hBool
  refine ⟨by simp [hres], by simp [hres], by simp [hres, entryCount]⟩

/-- Witness for C9 with the expected credential itself empty. -/
theorem C9_empty_credential_denied_witness :
    (requirePasswordForRequest none "" "" 0).fst = VerifyResult.Denied :=
  (C9_empty_credential_denied none "" 0 (by decide)).1

/-! ## Character and list facts for the sanitizer -/

lemma toList_mk (l : List Char) : (String.mk l).toList = l := rfl

lemma mk_toList (s : String) : String.mk s.toList = s := by cases s; rfl

lemma dropWhile_eq_self_of (p : Char → Bool) (l : List Char) (h : ∀ c ∈ l, p c = false) :
    l.dropWhile p = l := by
  cases l with
  | nil => rfl
  | cons c rest =>
    rw [List.dropWhile_cons]
    simp [h c (by simp)]

lemma takeWhile_eq_self_of (p : Char → Bool) (l : List Char) (h : ∀ c ∈ l, p c = true) :
    l.takeWhile p = l := by
  induction l with
  | nil => rfl
  | cons c rest ih =>
    rw [List.takeWhile_cons]
    simp [h c (by simp), ih (fun d hd => h d (by simp [hd]))]

lemma basenameL_eq_self (l : List Char) (h : ∀ c ∈ l, isSlashChar c = false) :
    basenameL l = l := by
  rw [basenameL,
    dropWhile_eq_self_of _ _ (fun c hc => h c (List.mem_reverse.mp hc)),
    takeWhile_eq_self_of _ _ (fun c hc => by simp [h c (List.mem_reverse.mp hc)]),
    List.reverse_reverse]

lemma basenameL_no_slash (l : List Char) : ∀ c ∈ basenameL l, isSlashChar c = false := by
  intro c hc
  rw [basenameL, List.mem_reverse] at hc
  have := List.mem_takeWhile_imp hc
  simpa using this

lemma collapseWsAux_eq_self (b : Bool) (l : List Char) (h : ∀ c ∈ l, jsWhitespace c = false) :
    collapseWsAux b l = l := by
  induction l generalizing b with
  | nil => rfl
  | cons c rest ih =>
    rw [collapseWsAux]
    simp [h c (by simp), ih false (fun d hd => h d (by simp [hd]))]

lemma keepChar_not_slash (c : Char) (h : keepChar c = true) : isSlashChar c = false := by
  simp only [keepChar, Bool.or_eq_true, Bool.and_eq_true, decide_eq_true_eq,
    beq_iff_eq] at h
  simp only [isSlashChar, beq_eq_false_iff_ne, ne_eq]
  omega

lemma keepChar_not_ws (c : Char) (h : keepChar c = true) : jsWhitespace c = false := by
  simp only [keepChar, Bool.or_eq_true, Bool.and_eq_true, decide_eq_true_eq,
    beq_iff_eq] at h
  simp only [jsWhitespace, Bool.or_eq_false_iff, Bool.and_eq_false_iff,
    beq_eq_false_iff_ne, ne_eq, decide_eq_false_iff_not, not_le]
  omega

lemma sanitizeFileName_chars (x : String) :
    ∀ c ∈ (sanitizeFileName x).toList, keepChar c = true := by
  intro c hc
  rw [sanitizeFileName] at hc
  split at hc
  · have hc2 : c ∈ ['f', 'i', 'l', 'e'] := hc
    simp only [List.mem_cons, List.not_mem_nil, or_false] at hc2
    rcases hc2 with rfl | rfl | rfl | rfl <;> decide
  · rw [toList_mk] at hc
    exact (List.mem_filter.mp hc).2

lemma sanitizeFileName_ne_empty (x : String) : sanitizeFileName x ≠ "" := by
  rw [sanitizeFileName]
  split
  · decide
  · assumption

lemma sanitizeFileName_of_kept (y : String) (hy : ∀ c ∈ y.toList, keepChar c = true)
    (hne : y ≠ "") : sanitizeFileName y = y := by
  have h1 : basenameL y.toList = y.toList :=
    basenameL_eq_self _ (fun c hc => keepChar_not_slash c (hy c hc))
  have h2 : collapseWs y.toList = y.toList :=
    collapseWsAux_eq_self false _ (fun c hc => keepChar_not_ws c (hy c hc))
  have h3 : y.toList.filter keepChar = y.toList := List.filter_eq_self.mpr hy
  rw [sanitizeFileName]
  simp only [toList_mk, h1, collapseWs] at *
  simp only [h2, h3, mk_toList]
  rw [if_neg hne]

/-- C7: the sanitizer is total and deterministic (it is a function), its
output is never empty (the fixed fallback token file covers the empty
case), it contains no path separator (in particular on the traversal
input), and it is idempotent. -/
theorem C7_sanitize_idempotent (x : String) :
    sanitizeFileName (sanitizeFileName x) = sanitizeFileName x ∧
    sanitizeFileName x ≠ "" ∧
    (sanitizeFileName x).toList.all (fun c => !isSlashChar c) = true ∧
    (sanitizeFileName "../../etc/passwd").toList.all (fun c => !isSlashChar c) = true ∧
    sanitizeFileName "" = "file" := by
  refine ⟨sanitizeFileName_of_kept _ (sanitizeFileName_chars x) (sanitizeFileName_ne_empty x),
    sanitizeFileName_ne_empty x, ?_, by decide, by decide⟩
  rw [List.all_eq_true]
  intro c hc
  simp [keepChar_not_slash c (sanitizeFileName_chars x c hc)]

/-- Witness for C7 on a name with directory parts, whitespace and
dropped characters. -/
theorem C7_sanitize_idempotent_witness :
    sanitizeFileName (sanitizeFileName "dir/a  b!.png") = sanitizeFileName "dir/a  b!.png" :=
  (C7_sanitize_idempotent "dir/a  b!.png").1

/-! ## Claims about the PixelCodec -/

/-- C4: a buffer whose leading bytes match neither the 8-byte PNG magic
nor the 3-byte JPEG magic makes decode fail with the unsupported-format
error; the decoder is a pure function, so there is no side effect. -/
theorem C4_unsupported_format (buffer : List Nat)
    (hp : buffer.take 8 ≠ pngMagic) (hj : buffer.take 3 ≠ jpegMagic) :
    imageBufferToPixelJSON buffer = Except.error DecodeError.UnsupportedFormat := by
  simp [imageBufferToPixelJSON, hp, hj]

/-- Witness for C4 at a short non-matching buffer. -/
theorem C4_unsupported_format_witness :
    imageBufferToPixelJSON [0, 1, 2] = Except.error DecodeError.UnsupportedFormat :=
  C4_unsupported_format [0, 1, 2] (by decide) (by decide)

lemma toPixels_length : ∀ l : List Nat, (toPixels l).length = l.length / 4
  | [] => rfl
  | [_] => by simp [toPixels]
  | [_, _] => by simp [toPixels]
  | [_, _, _] => by simp [toPixels]
  | _ :: _ :: _ :: _ :: rest => by
    simp [toPixels, toPixels_length rest]
    omega

lemma unfilterNone_length (w : Nat) :
    ∀ h raw data, unfilterNone w h raw = some data → data.length = 4 * w * h
  | 0, [], data, heq => by
    simp only [unfilterNone, Option.some.injEq] at heq
    simp [← heq]
  | 0, _ :: _, data, heq => by simp [unfilterNone] at heq
  | _ + 1, [], data, heq => by simp [unfilterNone] at heq
  | h + 1, f :: rest, data, heq => by
    rw [unfilterNone] at heq
    split at heq
    · exact absurd heq (by simp)
    · split at heq
      · exact absurd heq (by simp)
      · cases hrec : unfilterNone w h (rest.drop (4 * w)) with
        | none => rw [hrec] at heq; exact absurd heq (by simp)
        | some more =>
          rw [hrec] at heq
          simp only [Option.some.injEq] at heq
          have ih := unfilterNone_length w h (rest.drop (4 * w)) more hrec
          have hlen : (4 * w) ≤ rest.length := by omega
          rw [← heq, List.length_append, List.length_take, ih, Nat.mul_succ]
          omega

lemma pngSyncRead_length (buffer : List Nat) (w h : Nat) (data : List Nat)
    (heq : pngSyncRead buffer = some (w, h, data)) : data.length = 4 * w * h := by
  simp only [pngSyncRead, Option.bind_eq_some, Option.map_eq_some'] at heq
  obtain ⟨whd, hp, raw, hz, data2, hu, heqf⟩ := heq
  simp only [Prod.mk.injEq] at heqf
  obtain ⟨hw, hh, hd⟩ := heqf
  subst hw hh hd
  exact unfilterNone_length _ _ _ _ hu

/-- C5: a buffer whose first 8 bytes are the PNG magic never yields the
unsupported-format error: decode answers either a pixel image whose pixel
count is exactly width times height, or the decode-failure error. -/
theorem C5_png_never_unsupported (buffer : List Nat) (hp : buffer.take 8 = pngMagic) :
    imageBufferToPixelJSON buffer ≠ Except.error DecodeError.UnsupportedFormat ∧
    ∀ img, imageBufferToPixelJSON buffer = Except.ok img →
      img.pixels.length = img.width * img.height := by
  have hPNG : (buffer.take 8 == pngMagic) = true := by simp [hp]
  cases hdec : pngSyncRead buffer with
  | none =>
    have hres : imageBufferToPixelJSON buffer = Except.error DecodeError.DecodeFailure := by
      simp [imageBufferToPixelJSON, hPNG, hdec]
    refine ⟨by simp [hres], fun img himg => ?_⟩
    rw [hres] at himg
    exact absurd himg (by simp)
  | some whd =>
    obtain ⟨w, h, data⟩ := whd
    have hres : imageBufferToPixelJSON buffer = Except.ok ⟨w, h, toPixels data⟩ := by
      simp [imageBufferToPixelJSON, hPNG, hdec]
    refine ⟨by simp [hres], fun img himg => ?_⟩
    rw [hres] at himg
    injection himg with himg2
    subst himg2
    simp only [toPixels_length data]
    have hlen := pngSyncRead_length buffer w h data hdec
    have hk : data.length = 4 * (w * h) := by rw [hlen, Nat.mul_assoc]
    omega

/-- Witness for C5 at the concrete red PNG, which decodes successfully. -/
theorem C5_png_never_unsupported_witness :
    imageBufferToPixelJSON redPng ≠ Except.error DecodeError.UnsupportedFormat :=
  (C5_png_never_unsupported redPng (by decide)).1

/-! ## Claims about the upload pipeline -/

lemma digitChar10_toNat (d : Nat) :
    48 ≤ (digitChar10 d).toNat ∧ (digitChar10 d).toNat ≤ 57 := by
  unfold digitChar10
  split <;> decide

lemma natDigitsAux_chars (fuel : Nat) :
    ∀ n, ∀ c ∈ natDigitsAux fuel n, 48 ≤ c.toNat ∧ c.toNat ≤ 57 := by
  induction fuel with
  | zero => intro n c hc; simp [natDigitsAux] at hc
  | succ fuel ih =>
    intro n c hc
    rw [natDigitsAux] at hc
    split at hc
    · simp only [List.mem_singleton] at hc
      subst hc
      exact digitChar10_toNat n
    · rw [List.mem_append] at hc
      rcases hc with hc | hc
      · exact ih (n / 10) c hc
      · simp only [List.mem_singleton] at hc
        subst hc
        exact digitChar10_toNat (n % 10)

lemma natDigits_chars (n : Nat) : ∀ c ∈ natDigits n, 48 ≤ c.toNat ∧ c.toNat ≤ 57 :=
  natDigitsAux_chars (n + 1) n

lemma makeFileName_chars (now : Nat) (safeName : String)
    (hs : ∀ c ∈ safeName.toList, keepChar c = true) :
    ∀ c ∈ (makeFileName now safeName).toList, isSlashChar c = false := by
  intro c hc
  rw [makeFileName, toList_mk] at hc
  simp only [List.mem_append, List.mem_cons] at hc
  rcases hc with hc | rfl | hc | hc
  · have hd := natDigits_chars now c hc
    simp only [isSlashChar, beq_eq_false_iff_ne, ne_eq]
    omega
  · decide
  · exact keepChar_not_slash c (hs c hc)
  · simp only [List.mem_cons, List.not_mem_nil, or_false] at hc
    rcases hc with rfl | rfl | rfl | rfl | rfl <;> decide

lemma lookupStore_cons_self (store : RecordStore) (k : String) (d : StoredDoc) :
    lookupStore ((k, d) :: store) k = some d := by
  simp [lookupStore]

/-- C2 amended (JSON upload route): any buffer that decodes to the 2 by 2
opaque red image is persisted by the JSON upload route as a record with
width 2, height 2 and the four red pixels, and the read-by-name route
with the returned file name answers exactly that record. -/
theorem C2_uploadJson_roundtrip (store : RecordStore) (now : Nat) (name : String)
    (buffer : List Nat)
    (hdec : imageBufferToPixelJSON buffer = Except.ok ⟨2, 2, fourRed⟩) :
    ∃ store2 fn, uploadJson store now buffer name = Except.ok (store2, fn) ∧
      getImageHandler store2 fn = GetResult.found (StoredDoc.decoded fn name now 2 2 fourRed) := by
  refine ⟨(makeFileName now (sanitizeFileName name),
      StoredDoc.decoded (makeFileName now (sanitizeFileName name)) name now 2 2 fourRed) :: store,
    makeFileName now (sanitizeFileName name), ?_, ?_⟩
  · simp only [uploadJson, hdec]
  · have hbn : basenameL (makeFileName now (sanitizeFileName name)).toList =
        (makeFileName now (sanitizeFileName name)).toList :=
      basenameL_eq_self _
        (makeFileName_chars now (sanitizeFileName name) (sanitizeFileName_chars name))
    rw [getImageHandler]
    simp only [hbn, mk_toList, lookupStore_cons_self]

/-- Witness for C2 amended at the concrete red PNG. -/
theorem C2_uploadJson_roundtrip_witness :
    ∃ store2 fn, uploadJson [] 777 redPng "red.png" = Except.ok (store2, fn) ∧
      getImageHandler store2 fn =
        GetResult.found (StoredDoc.decoded fn "red.png" 777 2 2 fourRed) :=
  C2_uploadJson_roundtrip [] 777 "red.png" redPng (by rfl)

/-- C2 counterexample: the same red PNG sent through the multipart upload
route is persisted as the raw base64 record, which carries no width,
height or pixels, refuting the claim for that upload operation. -/
theorem C2_counterexample :
    Option.map hasPixelData
      (lookupStore (uploadMultipart [] 1000 redPng "red.png").fst
        (uploadMultipart [] 1000 redPng "red.png").snd) = some false := by
  decide

/-! ## Claims about the read-by-name path -/

lemma splitOnSlash_no_slash (l : List Char) (h : ∀ c ∈ l, isSlashChar c = false) :
    splitOnSlash l = [l] := by
  induction l with
  | nil => rfl
  | cons c rest ih =>
    rw [splitOnSlash]
    simp [h c (by simp), ih (fun d hd => h d (by simp [hd]))]

/-- C10 counterexample: the requested name a slash dot-dot contains a path
separator, its basename is the dot-dot segment, and the accessed path
normalizes to the parent of the storage directory, which does not lie
inside the storage directory. -/
theorem C10_counterexample :
    "a/..".toList.any isSlashChar = true ∧
    getImagePath [['s', 'r', 'v'], ['a', 'p', 'p'], ['s', 't', 'o', 'r', 'a', 'g', 'e']]
        "a/..".toList = [['s', 'r', 'v'], ['a', 'p', 'p']] ∧
    (getImagePath [['s', 'r', 'v'], ['a', 'p', 'p'], ['s', 't', 'o', 'r', 'a', 'g', 'e']]
        "a/..".toList).take 3 ≠
      [['s', 'r', 'v'], ['a', 'p', 'p'], ['s', 't', 'o', 'r', 'a', 'g', 'e']] := by
  refine ⟨by decide, by decide, by decide⟩

/-- C10 amended: the read-by-name route accesses only the storage
directory joined with the basename of the requested name; whenever that
basename is not the dot-dot segment the accessed path stays under the
storage directory (so names like dot-dot-slash-x are confined), and a
name whose record is absent from the store yields NotFound. -/
theorem C10_basename_confines (dirSegs : List (List Char)) (rawName : List Char)
    (hnd : basenameL rawName ≠ ['.', '.']) :
    (getImagePath dirSegs rawName).take dirSegs.length = dirSegs ∧
    (∀ store : RecordStore, ∀ s : String, s.toList = rawName →
      lookupStore store (String.mk (basenameL rawName)) = none →
      getImageHandler store s = GetResult.notFound) := by
  constructor
  · rw [getImagePath, splitOnSlash_no_slash _ (basenameL_no_slash rawName)]
    by_cases hA : basenameL rawName = []
    · rw [hA]
      simp [resolveSegs, List.take_length]
    · by_cases hB : basenameL rawName = ['.']
      · rw [hB]
        simp [resolveSegs, List.take_length]
      · have hres : resolveSegs dirSegs [basenameL rawName] = dirSegs ++ [basenameL rawName] := by
          simp [resolveSegs, hA, hB, hnd]
        rw [hres, List.take_left]
  · intro store s hsl hlk
    rw [getImageHandler]
    simp only [hsl, hlk]

/-- Witness for C10 amended at a plain file name against an empty store. -/
theorem C10_basename_confines_witness :
    (getImagePath [['s', 't', 'o', 'r', 'a', 'g', 'e']] "x.json".toList).take 1 =
        [['s', 't', 'o', 'r', 'a', 'g', 'e']] ∧
    getImageHandler [] "x.json" = GetResult.notFound := by
  have h := C10_basename_confines [['s', 't', 'o', 'r', 'a', 'g', 'e']] "x.json".toList
    (by decide)
  exact ⟨h.1, h.2 [] "x.json" rfl (by rfl)⟩
